import Mathlib

/-!
Shallow embedding of the numeric core of the `galmag`/`gmf_tool` repository:

* `src/galmag/Grid.py` — the coordinate-grid class (box, resolution, grid
  type, lazy coordinate generation in the three coordinate systems);
* `src/core/disk.py` — the disk-dynamo field evaluator (per-mode
  unnormalized field, normalization by a triple integral, the process-wide
  normalization cache keyed by wavenumber, mode summation and the
  `|z| > 1` masking);
* `src/gmf_tool/B_generators/halo_free_decay_modes.py` — the eight halo
  free-decay modes and the `get_mode` dispatcher.

Python floats are modelled by `ℝ`.  The external special functions from
`scipy.special` (`j0`, `j1`, `jv`) and the Bessel-zero table (`jn_zeros`)
are modelled as explicit function parameters: every definition below is an
exact transcription of the corresponding Python expression, parametric in
those externals.  Python exceptions are modelled by `Except PyErr`; the
mutable module-level cache `B_norm` is modelled by explicit state passing
of an association list, and the scipy `nquad` adaptive triple integration
is modelled by the iterated interval integral it approximates.
-/

set_option linter.unusedVariables false

noncomputable section

open Real

/-- The Python exceptions raised by the three modules. -/
inductive PyErr where
  | valueError : PyErr
  | notImplementedError : PyErr
  | indexError : PyErr
deriving DecidableEq

/-! ## Grid.py -/

/-- The state stored by `Grid.__init__` (`src/galmag/Grid.py`, lines 43-54):
box limits (a 3×2 array), the per-axis resolution and the grid type
string.  The lazily-cached `_coordinates` field starts as `None`; the
cache content is fully determined by these three fields, so the record
keeps only them. -/
structure Grid where
  box : Fin 3 → ℝ × ℝ
  resolution : Fin 3 → ℕ
  grid_type : String

/-- `Grid.__init__`: stores the box, the resolution and the grid type.
No statement of the constructor can raise for well-shaped numeric input:
in particular `grid_type` is stored without any validation. -/
def gridInit (box : Fin 3 → ℝ × ℝ) (resolution : Fin 3 → ℕ)
    (grid_type : String) : Except PyErr Grid :=
  Except.ok ⟨box, resolution, grid_type⟩

/-- The seven coordinate arrays produced by `Grid._generate_coordinates`,
at one grid point. -/
structure Coords where
  x : ℝ
  y : ℝ
  z : ℝ
  r_spherical : ℝ
  r_cylindrical : ℝ
  theta : ℝ
  phi : ℝ

/-- `np.mgrid` with a pure-imaginary step `n*1j` uses `linspace`
semantics: `n` evenly spaced samples over `[a, b]`, both ends included
(`src/galmag/Grid.py`, lines 128-132).  Sample `m` of `linspace a b n`. -/
def linspace (a b : ℝ) (n : ℕ) (m : ℕ) : ℝ :=
  if n ≤ 1 then a else a + (b - a) * m / (n - 1)

/-- `numpy.arctan2 y x`: the angle of the point `(x, y)` in `(-π, π]`,
with `arctan2 0 0 = 0`. -/
def arctan2 (y x : ℝ) : ℝ :=
  if 0 < x then Real.arctan (y / x)
  else if x < 0 then
    (if 0 ≤ y then Real.arctan (y / x) + π else Real.arctan (y / x) - π)
  else
    (if 0 < y then π / 2 else if y < 0 then -(π / 2) else 0)

/-- `Grid._generate_coordinates` (`src/galmag/Grid.py`, lines 118-206),
evaluated at the grid point of index `idx` (one index per axis).  The
native mesh value along axis `i` is `linspace` over `box i` with
`resolution i` points; the seven coordinate arrays are derived from the
native ones exactly as in the source, branching on the `grid_type`
string, and an unknown `grid_type` raises `ValueError`. -/
def generateCoordinatesAt (g : Grid) (idx : Fin 3 → ℕ) : Except PyErr Coords :=
  let c : Fin 3 → ℝ := fun i => linspace (g.box i).1 (g.box i).2 (g.resolution i) (idx i)
  if g.grid_type = "cartesian" then
    let x2y2 := (c 0) ^ 2 + (c 1) ^ 2
    let r_sph := Real.sqrt (x2y2 + (c 2) ^ 2)
    Except.ok
      { x := c 0
        y := c 1
        z := c 2
        r_spherical := r_sph
        r_cylindrical := Real.sqrt x2y2
        theta := Real.arccos (c 2 / r_sph)
        phi := arctan2 (c 1) (c 0) }
  else if g.grid_type = "spherical" then
    Except.ok
      { x := c 0 * Real.sin (c 1) * Real.cos (c 2)
        y := c 0 * Real.sin (c 1) * Real.sin (c 2)
        z := c 0 * Real.cos (c 1)
        r_spherical := c 0
        r_cylindrical := c 0 * Real.sin (c 1)
        theta := c 1
        phi := c 2 }
  else if g.grid_type = "cylindrical" then
    let r_sph := Real.sqrt ((c 0) ^ 2 + (c 2) ^ 2)
    Except.ok
      { x := c 0 * Real.cos (c 1)
        y := c 0 * Real.sin (c 1)
        z := c 2
        r_spherical := r_sph
        r_cylindrical := c 0
        theta := Real.arccos (c 2 / r_sph)
        phi := c 1 }
  else Except.error PyErr.valueError

end

noncomputable section

open Real

/-! ## halo_free_decay_modes.py -/

/-- Python list indexing `l[i]`: non-negative indices count from the
front, negative indices count from the back (`l[i]` is `l[len l + i]`
for `-len l ≤ i < 0`); anything else raises `IndexError` (`none`). -/
def pyGet {α : Type} (l : List α) (i : ℤ) : Option α :=
  if 0 ≤ i then l.get? i.toNat
  else if 0 ≤ i + l.length then l.get? (i + l.length).toNat
  else none

section HaloModes

-- `scipy.special.jv order x`, the Bessel function of the first kind, is
-- kept abstract: the halo module only ever evaluates it pointwise.
variable (jv : ℝ → ℝ → ℝ)

/-- Interior branch (`r <= 1`, the `separator` mask) of `get_B_a_1`
(`halo_free_decay_modes.py`, lines 12-43). -/
def get_B_a_1_interior (r theta phi C k : ℝ) : ℝ × ℝ × ℝ :=
  let Q := r ^ (-(0.5 : ℝ)) * jv (3 / 2) (k * r)
  let Br := C * (2 / r) * Q * Real.cos theta
  let y := k * r
  let X := Real.sqrt (2 / π) * (y ^ 2 * Real.sin y - Real.sin y + y * Real.cos y) /
      (k ^ (-(0.5 : ℝ)) * y ^ 2)
  let Btheta := C * (-Real.sin theta / r) * X
  (Br, Btheta, 0)

/-- Exterior branch (`r > 1`, the `~separator` mask) of `get_B_a_1`. -/
def get_B_a_1_exterior (r theta phi C k : ℝ) : ℝ × ℝ × ℝ :=
  let Q := r ^ (-(2.0 : ℝ)) * jv (3 / 2) k
  let Br := C * (2 / r) * Q * Real.cos theta
  let X := -1 * r ^ (-(2.0 : ℝ)) * jv (3 / 2) k
  let Btheta := C * (-Real.sin theta / r) * X
  (Br, Btheta, 0)

/-- `get_B_a_1`: first antisymmetric free-decay mode (purely poloidal),
assembled pointwise from its two branches. -/
def get_B_a_1 (r theta phi C k : ℝ) : ℝ × ℝ × ℝ :=
  if r ≤ 1 then get_B_a_1_interior jv r theta phi C k
  else get_B_a_1_exterior jv r theta phi C k

/-- Interior branch (`r <= 1`) of `get_B_a_2`
(`halo_free_decay_modes.py`, lines 45-89). -/
def get_B_a_2_interior (r theta phi C k : ℝ) : ℝ × ℝ × ℝ :=
  let Q := r ^ (-(0.5 : ℝ)) * jv (7 / 2) (k * r)
  let Br := Q * Real.cos theta * (5 * Real.cos (2 * theta) - 1) * C * (2 / r)
  let y := k * r
  let siny := Real.sin y
  let cosy := Real.cos y
  let A := 15 * siny / y ^ 3 - 15 * cosy / y ^ 2 - 6 * (siny / y) + cosy
  let B := -45 * siny / y ^ 3 / r + 45 * cosy / y ^ 2 / r + 21 * siny / y / r -
      k * siny - 6 * siny / r
  let X := A / Real.sqrt (2 * π * r * y) -
      k * Real.sqrt r * A / Real.sqrt (2 * π) / y ^ ((3 : ℝ) / 2) +
      Real.sqrt (2 / π) * B / Real.sqrt k
  let Btheta := C * (-Real.sin theta / r) * (5 * Real.cos theta ^ 2 - 1) * X
  (Br, Btheta, 0)

/-- Exterior branch (`r > 1`) of `get_B_a_2`.  Note that the source sets
`X[r>1] = 0.0`, with the analytic expression
`-3.*jv(7.0/2.0,k)*r**(-4)` left in a comment (line 81). -/
def get_B_a_2_exterior (r theta phi C k : ℝ) : ℝ × ℝ × ℝ :=
  let Q := r ^ (-(4.0 : ℝ)) * jv (7 / 2) k
  let Br := Q * Real.cos theta * (5 * Real.cos (2 * theta) - 1) * C * (2 / r)
  let X := (0 : ℝ)
  let Btheta := C * (-Real.sin theta / r) * (5 * Real.cos theta ^ 2 - 1) * X
  (Br, Btheta, 0)

/-- `get_B_a_2`: second antisymmetric free-decay mode (purely poloidal). -/
def get_B_a_2 (r theta phi C k : ℝ) : ℝ × ℝ × ℝ :=
  if r ≤ 1 then get_B_a_2_interior jv r theta phi C k
  else get_B_a_2_exterior jv r theta phi C k

/-- Interior branch (`r <= 1`) of `get_B_a_3`
(`halo_free_decay_modes.py`, lines 92-117). -/
def get_B_a_3_interior (r theta phi C k : ℝ) : ℝ × ℝ × ℝ :=
  let Q := r ^ (-(0.5 : ℝ)) * jv (5 / 2) (k * r)
  (0, 0, C * Q * Real.sin theta * Real.cos theta)

/-- Exterior branch (`r > 1`) of `get_B_a_3`. -/
def get_B_a_3_exterior (r theta phi C k : ℝ) : ℝ × ℝ × ℝ :=
  let Q := r ^ (-(3.0 : ℝ)) * jv (5 / 2) k
  (0, 0, C * Q * Real.sin theta * Real.cos theta)

/-- `get_B_a_3`: third antisymmetric free-decay mode (purely toroidal). -/
def get_B_a_3 (r theta phi C k : ℝ) : ℝ × ℝ × ℝ :=
  if r ≤ 1 then get_B_a_3_interior jv r theta phi C k
  else get_B_a_3_exterior jv r theta phi C k

/-- `get_B_a_4` (`halo_free_decay_modes.py`, lines 120-131): the fourth
antisymmetric mode has the same form as the first. -/
def get_B_a_4 (r theta phi C k : ℝ) : ℝ × ℝ × ℝ :=
  get_B_a_1 jv r theta phi C k

/-- Interior branch (`r <= 1`) of `get_B_s_1`
(`halo_free_decay_modes.py`, lines 134-168). -/
def get_B_s_1_interior (r theta phi C k : ℝ) : ℝ × ℝ × ℝ :=
  let Q := r ^ (-(0.5 : ℝ)) * jv (5 / 2) (k * r)
  let Br := C * Q * (3 * Real.cos theta ^ 2 - 1) / r
  let y := k * r
  let siny := Real.sin y
  let cosy := Real.cos y
  let X := (3 * siny / y ^ 2 - siny - 3 * cosy / y) / Real.sqrt (2 * π * y * r) -
      k * Real.sqrt r * (3 * siny / y ^ 2 - siny - 3 * cosy / y) / Real.sqrt (2 * π) *
        y ^ (-(3 : ℝ) / 2) +
      Real.sqrt (2 / π * r) *
        (-6 * siny * k / y ^ 3 + 6 * cosy * k / y ^ 2 + 3 * siny * k / y - k * cosy) /
        Real.sqrt y
  let Btheta := C * (-Real.sin theta * Real.cos theta / r) * X
  (Br, Btheta, 0)

/-- Exterior branch (`r > 1`) of `get_B_s_1`. -/
def get_B_s_1_exterior (r theta phi C k : ℝ) : ℝ × ℝ × ℝ :=
  let Q := r ^ (-(3.0 : ℝ)) * jv (5 / 2) k
  let Br := C * Q * (3 * Real.cos theta ^ 2 - 1) / r
  let X := -2 * r ^ (-(3.0 : ℝ)) * jv (5 / 2) k
  let Btheta := C * (-Real.sin theta * Real.cos theta / r) * X
  (Br, Btheta, 0)

/-- `get_B_s_1`: first symmetric free-decay mode (purely poloidal). -/
def get_B_s_1 (r theta phi C k : ℝ) : ℝ × ℝ × ℝ :=
  if r ≤ 1 then get_B_s_1_interior jv r theta phi C k
  else get_B_s_1_exterior jv r theta phi C k

/-- Interior branch (`r <= 1`) of `get_B_s_2`
(`halo_free_decay_modes.py`, lines 171-196). -/
def get_B_s_2_interior (r theta phi C k : ℝ) : ℝ × ℝ × ℝ :=
  let Q := r ^ (-(0.5 : ℝ)) * jv (3 / 2) (k * r)
  (0, 0, C * Q * Real.sin theta)

/-- Exterior branch (`r > 1`) of `get_B_s_2`. -/
def get_B_s_2_exterior (r theta phi C k : ℝ) : ℝ × ℝ × ℝ :=
  let Q := r ^ (-(2.0 : ℝ)) * jv (3 / 2) k
  (0, 0, C * Q * Real.sin theta)

/-- `get_B_s_2`: second symmetric free-decay mode (purely toroidal). -/
def get_B_s_2 (r theta phi C k : ℝ) : ℝ × ℝ × ℝ :=
  if r ≤ 1 then get_B_s_2_interior jv r theta phi C k
  else get_B_s_2_exterior jv r theta phi C k

/-- Interior branch (`r <= 1`) of `get_B_s_3`
(`halo_free_decay_modes.py`, lines 198-233). -/
def get_B_s_3_interior (r theta phi C k : ℝ) : ℝ × ℝ × ℝ :=
  let cost := Real.cos theta
  let sint := Real.sin theta
  let y := k * r
  let Q1 := r ^ (-(0.5 : ℝ)) * jv (9 / 2) y
  let S1 := -700 * cost ^ 4 + 600 * cost ^ 2 - 60
  let Br := C * Q1 * S1 / r
  let Q2 := Q1 / 2 + r ^ ((0.5 : ℝ)) / 2 * k * (jv (7 / 2) y - jv (11 / 2) y)
  let S2 := -140 * cost ^ 3 * sint + 60 * cost * sint
  let Btheta := -C * Q2 * S2 / r
  (Br, Btheta, 0)

/-- Exterior branch (`r > 1`) of `get_B_s_3`. -/
def get_B_s_3_exterior (r theta phi C k : ℝ) : ℝ × ℝ × ℝ :=
  let cost := Real.cos theta
  let sint := Real.sin theta
  let Q1 := r ^ (-(5.0 : ℝ)) * jv (9 / 2) k
  let S1 := -700 * cost ^ 4 + 600 * cost ^ 2 - 60
  let Br := C * Q1 * S1 / r
  let Q2 := -4 * r ^ (-(5.0 : ℝ)) * jv (9 / 2) k
  let S2 := -140 * cost ^ 3 * sint + 60 * cost * sint
  let Btheta := -C * Q2 * S2 / r
  (Br, Btheta, 0)

/-- `get_B_s_3`: third symmetric free-decay mode (purely poloidal). -/
def get_B_s_3 (r theta phi C k : ℝ) : ℝ × ℝ × ℝ :=
  if r ≤ 1 then get_B_s_3_interior jv r theta phi C k
  else get_B_s_3_exterior jv r theta phi C k

/-- Interior branch (`r <= 1`) of `get_B_s_4`
(`halo_free_decay_modes.py`, lines 236-261). -/
def get_B_s_4_interior (r theta phi C k : ℝ) : ℝ × ℝ × ℝ :=
  let Q := r ^ (-(0.5 : ℝ)) * jv (7 / 2) (k * r)
  let S := 3 * Real.sin theta * (1 - 5 * Real.cos theta ^ 2)
  (0, 0, -C * Q * S)

/-- Exterior branch (`r > 1`) of `get_B_s_4`. -/
def get_B_s_4_exterior (r theta phi C k : ℝ) : ℝ × ℝ × ℝ :=
  let Q := r ^ (-(4.0 : ℝ)) * jv (7 / 2) k
  let S := 3 * Real.sin theta * (1 - 5 * Real.cos theta ^ 2)
  (0, 0, -C * Q * S)

/-- `get_B_s_4`: fourth symmetric free-decay mode (purely toroidal). -/
def get_B_s_4 (r theta phi C k : ℝ) : ℝ × ℝ × ℝ :=
  if r ≤ 1 then get_B_s_4_interior jv r theta phi C k
  else get_B_s_4_exterior jv r theta phi C k

/-- `symmetric_modes_list` (line 268): the four symmetric modes, each
applied with the default `C`, `k` of its Python signature. -/
def symmetric_modes_list : List (ℝ → ℝ → ℝ → ℝ × ℝ × ℝ) :=
  [fun r theta phi => get_B_s_1 jv r theta phi 0.653646562698 4.493409457909,
   fun r theta phi => get_B_s_2 jv r theta phi 1.32984358196 4.493409457909,
   fun r theta phi => get_B_s_3 jv r theta phi 0.0169610298034 6.987932000501,
   fun r theta phi => get_B_s_4 jv r theta phi 0.539789362061 6.987932000501]

/-- `antisymmetric_modes_list` (line 269): the four antisymmetric modes
with their default constants. -/
def antisymmetric_modes_list : List (ℝ → ℝ → ℝ → ℝ × ℝ × ℝ) :=
  [fun r theta phi => get_B_a_1 jv r theta phi 0.346 π,
   fun r theta phi => get_B_a_2 jv r theta phi 0.250 5.763,
   fun r theta phi => get_B_a_3 jv r theta phi 3.445 5.763,
   fun r theta phi => get_B_a_4 jv r theta phi 0.244 (2 * π)]

/-- `get_mode` (`halo_free_decay_modes.py`, lines 272-288): raises
`NotImplementedError` when `n_mode > 4`, otherwise indexes the chosen
mode list at `n_mode - 1` with Python list-indexing semantics. -/
def get_mode (r theta phi : ℝ) (n_mode : ℤ) (symmetric : Bool) :
    Except PyErr (ℝ × ℝ × ℝ) :=
  if 4 < n_mode then Except.error PyErr.notImplementedError
  else
    match pyGet (if symmetric then symmetric_modes_list jv else antisymmetric_modes_list jv)
        (n_mode - 1) with
    | some f => Except.ok (f r theta phi)
    | none => Except.error PyErr.indexError

end HaloModes

end

/-! ## disk.py -/

noncomputable section DiskField

open Real intervalIntegral

-- The external special functions imported from `scipy.special` at the top
-- of `src/core/disk.py` are kept abstract: `j0`, `j1` (Bessel functions
-- of the first kind of order 0 and 1), `jv` (arbitrary order, used as
-- `jv(2, x)`), and `jn_zeros1 i`, the `i`-th entry (0-based) of
-- `jn_zeros(1, m)`, i.e. the `(i+1)`-th positive zero of `J1`.
variable (j0 j1 : ℝ → ℝ) (jv : ℝ → ℝ → ℝ) (jn_zeros1 : ℕ → ℝ)

/-- `get_B_disk_cyl_unnormalized` (`src/core/disk.py`, lines 34-62): the
`n`-th unnormalized disk-dynamo mode in cylindrical coordinates, with the
parameters `Ralpha = p['Ralpha_d']` and `D = p['D_d']` unpacked. -/
def get_B_disk_cyl_unnormalized (r phi z kn Ralpha D : ℝ) : ℝ × ℝ × ℝ :=
  let Br := Ralpha * j1 (kn * r) *
      (Real.cos (π * z / 2.0) +
        3.0 * Real.cos (3 * π * z / 2.0) / (4.0 * π ^ (1.5 : ℝ) * Real.sqrt (-D)))
  let Bphi := -2.0 * j1 (kn * r) * Real.sqrt (-D / π) * Real.cos (π * z / 2.0)
  let Bz := -2.0 * Ralpha / π * (j1 (kn * r) + 0.5 * kn * r * (j0 (kn * r) - jv 2 (kn * r))) *
      (Real.sin (π * z / 2.0) + Real.sin (3 * π * z / 2.0) / (4.0 * π ^ (1.5 : ℝ) * Real.sqrt (-D)))
  (Br, Bphi, Bz)

/-- `__intregrand_compute_normalization` (`src/core/disk.py`, lines 64-67),
transcribed with Python's operator precedence: the expression
`r * Br*Br + Bphi*Bphi + Bz*Bz` multiplies only the `Br*Br` term by `r`. -/
def intregrand_compute_normalization (r phi z kn Ralpha D : ℝ) : ℝ :=
  let B := get_B_disk_cyl_unnormalized j0 j1 jv r phi z kn Ralpha D
  r * B.1 * B.1 + B.2.1 * B.2.1 + B.2.2 * B.2.2

/-- Modelled from the spec: the integrand the specification describes for
the normalization integral, `r·(Br²+Bphi²+Bz²)` — the unnormalized field
energy density times the cylindrical volume-element factor `r`.  Stated
only for comparison with `intregrand_compute_normalization` above. -/
def intregrand_spec (r phi z kn Ralpha D : ℝ) : ℝ :=
  let B := get_B_disk_cyl_unnormalized j0 j1 jv r phi z kn Ralpha D
  r * (B.1 * B.1 + B.2.1 * B.2.1 + B.2.2 * B.2.2)

/-- `compute_normalization` (`src/core/disk.py`, lines 69-89): the inverse
square root of the triple integral of the integrand over
`r ∈ [0,1]`, `phi ∈ [0,2π]`, `z ∈ [-1,1]`; `scipy.integrate.nquad`'s
adaptive numerical triple integration is modelled by the iterated
interval integral it approximates. -/
def compute_normalization (kn Ralpha D : ℝ) : ℝ :=
  (∫ z in (-1 : ℝ)..1, ∫ phi in (0 : ℝ)..(2.0 * π), ∫ r in (0 : ℝ)..1,
      intregrand_compute_normalization j0 j1 jv r phi z kn Ralpha D) ^ (-(0.5) : ℝ)

/-- Lookup in the module-level cache `B_norm` (`src/core/disk.py`,
line 32), modelled as an association list searched front-first (a later
`B_norm[kn] = v` assignment is a front insertion, shadowing older
entries exactly as a `dict` overwrite would). -/
def cacheFind : List (ℝ × ℝ) → ℝ → Option ℝ
  | [], _ => none
  | (kn, v) :: rest, key => if kn = key then some v else cacheFind rest key

/-- The normalization scalar a call of `get_B_disk_cyl_component` with
wavenumber `kn` uses when the cache currently holds `cache`: the cached
entry if present, else the freshly computed `compute_normalization`. -/
def usedNorm (cache : List (ℝ × ℝ)) (kn Ralpha D : ℝ) : ℝ :=
  match cacheFind cache kn with
  | some v => v
  | none => compute_normalization j0 j1 jv kn Ralpha D

/-- `get_B_disk_cyl_component` (`src/core/disk.py`, lines 92-108) with the
process-wide mutable cache `B_norm` made explicit: the result triple, the
cache after the call, and a flag recording whether the call invoked the
numerical integration (`compute_normalization`). -/
def get_B_disk_cyl_component (r phi z kn Ralpha D : ℝ) (cache : List (ℝ × ℝ)) :
    (ℝ × ℝ × ℝ) × List (ℝ × ℝ) × Bool :=
  let B := get_B_disk_cyl_unnormalized j0 j1 jv r phi z kn Ralpha D
  match cacheFind cache kn with
  | some nb => ((nb * B.1, nb * B.2.1, nb * B.2.2), cache, false)
  | none =>
    let nb := compute_normalization j0 j1 jv kn Ralpha D
    ((nb * B.1, nb * B.2.1, nb * B.2.2), (kn, nb) :: cache, true)

/-- The accumulation loop of `get_B_disk_cyl` (`src/core/disk.py`,
lines 126-131): starting from `(0,0,0)`, add `Cn * B_mode` for each
coefficient, threading the normalization cache through the calls.
`i` is the running `enumerate` index, so mode `i` uses wavenumber
`jn_zeros1 i`. -/
def get_B_disk_cyl_sum (r phi z Ralpha D : ℝ) :
    List ℝ → ℕ → (ℝ × ℝ × ℝ) → List (ℝ × ℝ) → (ℝ × ℝ × ℝ) × List (ℝ × ℝ)
  | [], _, acc, cache => (acc, cache)
  | Cn :: rest, i, acc, cache =>
    let out := get_B_disk_cyl_component j0 j1 jv r phi z (jn_zeros1 i) Ralpha D cache
    get_B_disk_cyl_sum r phi z Ralpha D rest (i + 1)
      (acc.1 + Cn * out.1.1, acc.2.1 + Cn * out.1.2.1, acc.2.2 + Cn * out.1.2.2) out.2.1

/-- `get_B_disk_cyl` (`src/core/disk.py`, lines 111-138) at one sample
point: sums the normalized modes weighted by `Cns = p['Cn_d']` and then
forces every component to zero where `abs z > 1` (the source's
`Br[abs(z)>1]=0` masking).  An empty coefficient list leaves the Python
variable `Br` unbound (a `NameError`), modelled by `none`. -/
def get_B_disk_cyl (r phi z : ℝ) (Cns : List ℝ) (Ralpha D : ℝ)
    (cache : List (ℝ × ℝ)) : Option ((ℝ × ℝ × ℝ) × List (ℝ × ℝ)) :=
  match Cns with
  | [] => none
  | _ :: _ =>
    let out := get_B_disk_cyl_sum j0 j1 jv jn_zeros1 r phi z Ralpha D Cns 0 (0, 0, 0) cache
    some ((if 1 < |z| then 0 else out.1.1,
           if 1 < |z| then 0 else out.1.2.1,
           if 1 < |z| then 0 else out.1.2.2), out.2)

end DiskField

/-! ## Concrete example values used by witnesses -/

noncomputable section Examples

/-- A concrete grid: unit box `[0,1]³` read as spherical coordinates,
resolution 3 per axis. -/
def gridSphExample : Grid := ⟨fun _ => (0, 1), fun _ => 3, "spherical"⟩

/-- The coordinate bundle of the grid point of index `(0,0,0)` of
`gridSphExample`: the origin. -/
def coordsZero : Coords := ⟨0, 0, 0, 0, 0, 0, 0⟩

end Examples

/-! ## Theorems -/

open Real

section GridTheorems

/-- C3 (counterexample): the Grid constructor does **not** fail on a
`grid_type` outside {cartesian, spherical, cylindrical}: constructing a
grid with `grid_type = "polar"` succeeds and stores the invalid string
verbatim. -/
theorem gridInit_accepts_invalid_grid_type :
    gridInit (fun _ => ((0 : ℝ), (1 : ℝ))) (fun _ => 3) "polar" =
      Except.ok ⟨fun _ => ((0 : ℝ), (1 : ℝ)), fun _ => 3, "polar"⟩ ∧
    "polar" ∉ (["cartesian", "spherical", "cylindrical"] : List String) := by
  exact ⟨rfl, by simp⟩

/-- C3 (amended): constructing a Grid with a `grid_type` outside
{cartesian, spherical, cylindrical} always succeeds — the constructor
stores the string without validation — and the configuration error
(`ValueError`) is raised on the first coordinate access, when
`_generate_coordinates` runs. -/
theorem gridInit_defers_grid_type_validation (box : Fin 3 → ℝ × ℝ)
    (resolution : Fin 3 → ℕ) (gt : String)
    (h : gt ∉ (["cartesian", "spherical", "cylindrical"] : List String)) :
    gridInit box resolution gt = Except.ok ⟨box, resolution, gt⟩ ∧
    ∀ idx, generateCoordinatesAt ⟨box, resolution, gt⟩ idx =
      Except.error PyErr.valueError := by
  refine ⟨rfl, fun idx => ?_⟩
  simp only [List.mem_cons, List.mem_singleton, not_or] at h
  obtain ⟨h1, h2, h3⟩ := h
  simp [generateCoordinatesAt, h1, h2, h3]

/-- Witness for the amended C3 theorem at `grid_type = "polar"`. -/
theorem gridInit_defers_grid_type_validation_witness :
    ("polar" ∉ (["cartesian", "spherical", "cylindrical"] : List String)) ∧
    (gridInit (fun _ => ((0 : ℝ), (1 : ℝ))) (fun _ => 3) "polar" =
        Except.ok ⟨fun _ => ((0 : ℝ), (1 : ℝ)), fun _ => 3, "polar"⟩ ∧
      ∀ idx, generateCoordinatesAt ⟨fun _ => ((0 : ℝ), (1 : ℝ)), fun _ => 3, "polar"⟩ idx =
        Except.error PyErr.valueError) :=
  ⟨by simp, gridInit_defers_grid_type_validation _ _ _ (by simp)⟩

end GridTheorems

section HaloTheorems

/-- C7: for every `n_mode > 4` and either symmetry flag, `get_mode`
raises `NotImplementedError` and returns no field. -/
theorem get_mode_not_implemented_above_four (jv : ℝ → ℝ → ℝ) (r theta phi : ℝ)
    (n_mode : ℤ) (symmetric : Bool) (h : 4 < n_mode) :
    get_mode jv r theta phi n_mode symmetric =
      Except.error PyErr.notImplementedError := by
  simp [get_mode, h]

/-- Witness for C7 at `n_mode = 5`, `symmetric = true`. -/
theorem get_mode_not_implemented_above_four_witness :
    (4 : ℤ) < 5 ∧
    get_mode (fun _ _ => 0) 0 0 0 5 true = Except.error PyErr.notImplementedError :=
  ⟨by norm_num, get_mode_not_implemented_above_four (fun _ _ => 0) 0 0 0 5 true (by norm_num)⟩

/-- C10: `get_mode` validates only the upper bound of the mode index:
no `n_mode ≤ 0` reaches the `NotImplementedError` branch; in particular
`n_mode = 0` returns the 4th mode of the requested symmetry class and
`n_mode = -3` returns the 1st (Python negative indexing into the mode
tables). -/
theorem get_mode_no_lower_bound_validation (jv : ℝ → ℝ → ℝ) (r theta phi : ℝ)
    (n_mode : ℤ) (symmetric : Bool) (h : n_mode ≤ 0) :
    get_mode jv r theta phi n_mode symmetric ≠ Except.error PyErr.notImplementedError ∧
    get_mode jv r theta phi 0 symmetric =
      Except.ok (if symmetric then get_B_s_4 jv r theta phi 0.539789362061 6.987932000501
                 else get_B_a_4 jv r theta phi 0.244 (2 * π)) ∧
    get_mode jv r theta phi (-3) symmetric =
      Except.ok (if symmetric then get_B_s_1 jv r theta phi 0.653646562698 4.493409457909
                 else get_B_a_1 jv r theta phi 0.346 π) := by
  refine ⟨?_, ?_, ?_⟩
  · have h4 : ¬ (4 : ℤ) < n_mode := by omega
    simp only [get_mode, if_neg h4]
    rcases hp : pyGet (if symmetric then symmetric_modes_list jv
        else antisymmetric_modes_list jv) (n_mode - 1) with _ | f <;> simp
  · cases symmetric <;>
      simp [get_mode, pyGet, symmetric_modes_list, antisymmetric_modes_list]
  · cases symmetric <;>
      simp [get_mode, pyGet, symmetric_modes_list, antisymmetric_modes_list]

/-- Witness for C10 at `n_mode = 0`, `symmetric = true`. -/
theorem get_mode_no_lower_bound_validation_witness :
    (0 : ℤ) ≤ 0 ∧
    (get_mode (fun _ _ => (0 : ℝ)) 0 0 0 0 true ≠ Except.error PyErr.notImplementedError ∧
     get_mode (fun _ _ => (0 : ℝ)) 0 0 0 0 true =
       Except.ok (if true then get_B_s_4 (fun _ _ => (0 : ℝ)) 0 0 0 0.539789362061 6.987932000501
                  else get_B_a_4 (fun _ _ => (0 : ℝ)) 0 0 0 0.244 (2 * π)) ∧
     get_mode (fun _ _ => (0 : ℝ)) 0 0 0 (-3) true =
       Except.ok (if true then get_B_s_1 (fun _ _ => (0 : ℝ)) 0 0 0 0.653646562698 4.493409457909
                  else get_B_a_1 (fun _ _ => (0 : ℝ)) 0 0 0 0.346 π)) :=
  ⟨le_refl 0, get_mode_no_lower_bound_validation (fun _ _ => 0) 0 0 0 0 true (le_refl 0)⟩

/-- C5: for every input, the halo modes s_2, s_4 and a_3 have `Br` and
`Btheta` identically zero (purely toroidal), and the modes s_1, s_3,
a_1, a_2 and a_4 have `Bphi` identically zero (purely poloidal); hence
no mode has both a non-zero azimuthal and a non-zero
radial-or-polar component. -/
theorem halo_modes_purity (jv : ℝ → ℝ → ℝ) (r theta phi C k : ℝ) :
    ((get_B_s_2 jv r theta phi C k).1 = 0 ∧ (get_B_s_2 jv r theta phi C k).2.1 = 0) ∧
    ((get_B_s_4 jv r theta phi C k).1 = 0 ∧ (get_B_s_4 jv r theta phi C k).2.1 = 0) ∧
    ((get_B_a_3 jv r theta phi C k).1 = 0 ∧ (get_B_a_3 jv r theta phi C k).2.1 = 0) ∧
    (get_B_s_1 jv r theta phi C k).2.2 = 0 ∧
    (get_B_s_3 jv r theta phi C k).2.2 = 0 ∧
    (get_B_a_1 jv r theta phi C k).2.2 = 0 ∧
    (get_B_a_2 jv r theta phi C k).2.2 = 0 ∧
    (get_B_a_4 jv r theta phi C k).2.2 = 0 := by
  unfold get_B_s_2 get_B_s_4 get_B_a_3 get_B_s_1 get_B_s_3 get_B_a_4 get_B_a_1 get_B_a_2
  split_ifs <;>
    simp [get_B_s_2_interior, get_B_s_2_exterior, get_B_s_4_interior, get_B_s_4_exterior,
      get_B_a_3_interior, get_B_a_3_exterior, get_B_s_1_interior, get_B_s_1_exterior,
      get_B_s_3_interior, get_B_s_3_exterior, get_B_a_1_interior, get_B_a_1_exterior,
      get_B_a_2_interior, get_B_a_2_exterior]

end HaloTheorems

section DiskTheorems

/-- C4: at every sample point with dimensionless `|z| > 1`, the disk
field returned by `get_B_disk_cyl` is exactly `(0, 0, 0)`, for every
input, every non-empty coefficient list and every parameter set and
cache state. -/
theorem get_B_disk_cyl_zero_outside_disk (j0 j1 : ℝ → ℝ) (jv : ℝ → ℝ → ℝ)
    (jn_zeros1 : ℕ → ℝ) (r phi z : ℝ) (Cns : List ℝ) (Ralpha D : ℝ)
    (cache : List (ℝ × ℝ)) (hz : 1 < |z|) (hC : Cns ≠ []) :
    Option.map Prod.fst (get_B_disk_cyl j0 j1 jv jn_zeros1 r phi z Cns Ralpha D cache) =
      some ((0 : ℝ), (0 : ℝ), (0 : ℝ)) := by
  cases Cns with
  | nil => exact absurd rfl hC
  | cons Cn rest => simp [get_B_disk_cyl, hz]

/-- Witness for C4 at `z = 2`, a single unit coefficient and an empty
cache. -/
theorem get_B_disk_cyl_zero_outside_disk_witness :
    (1 : ℝ) < |(2 : ℝ)| ∧ ([1] : List ℝ) ≠ [] ∧
    Option.map Prod.fst
        (get_B_disk_cyl (fun _ => 0) (fun _ => 0) (fun _ _ => 0) (fun _ => 1)
          0 0 2 [1] 1 (-1) []) = some ((0 : ℝ), (0 : ℝ), (0 : ℝ)) :=
  ⟨by norm_num, by simp,
    get_B_disk_cyl_zero_outside_disk (fun _ => 0) (fun _ => 0) (fun _ _ => 0)
      (fun _ => 1) 0 0 2 [1] 1 (-1) [] (by norm_num) (by simp)⟩

/-- C8: after any call of `get_B_disk_cyl_component` with wavenumber
`kn`, a second call with the same `kn` does not invoke the numerical
integration (its flag is `false`), leaves the cache unchanged, and
scales the unnormalized field by exactly the scalar that the first call
used and stored in the cache. -/
theorem get_B_disk_cyl_component_cached_second_call (j0 j1 : ℝ → ℝ) (jv : ℝ → ℝ → ℝ)
    (r phi z kn Ralpha D r' phi' z' Ralpha' D' : ℝ) (cache : List (ℝ × ℝ)) :
    (get_B_disk_cyl_component j0 j1 jv r' phi' z' kn Ralpha' D'
        (get_B_disk_cyl_component j0 j1 jv r phi z kn Ralpha D cache).2.1).2.2 = false ∧
    (get_B_disk_cyl_component j0 j1 jv r' phi' z' kn Ralpha' D'
        (get_B_disk_cyl_component j0 j1 jv r phi z kn Ralpha D cache).2.1).2.1 =
      (get_B_disk_cyl_component j0 j1 jv r phi z kn Ralpha D cache).2.1 ∧
    cacheFind (get_B_disk_cyl_component j0 j1 jv r phi z kn Ralpha D cache).2.1 kn =
      some (usedNorm j0 j1 jv cache kn Ralpha D) ∧
    (get_B_disk_cyl_component j0 j1 jv r' phi' z' kn Ralpha' D'
        (get_B_disk_cyl_component j0 j1 jv r phi z kn Ralpha D cache).2.1).1 =
      (usedNorm j0 j1 jv cache kn Ralpha D *
         (get_B_disk_cyl_unnormalized j0 j1 jv r' phi' z' kn Ralpha' D').1,
       usedNorm j0 j1 jv cache kn Ralpha D *
         (get_B_disk_cyl_unnormalized j0 j1 jv r' phi' z' kn Ralpha' D').2.1,
       usedNorm j0 j1 jv cache kn Ralpha D *
         (get_B_disk_cyl_unnormalized j0 j1 jv r' phi' z' kn Ralpha' D').2.2) := by
  rcases h : cacheFind cache kn with _ | v <;>
    simp [get_B_disk_cyl_component, usedNorm, cacheFind, h]

end DiskTheorems

section GridConsistency

/-- Helper: for `z² ≤ S`, the round trip `√S * cos (arccos (z / √S))`
recovers `z` (also at the degenerate origin `S = 0`, where `z` is
necessarily `0`). -/
theorem sqrt_mul_cos_arccos_div (S z : ℝ) (hS : 0 ≤ S) (hz : z ^ 2 ≤ S) :
    Real.sqrt S * Real.cos (Real.arccos (z / Real.sqrt S)) = z := by
  rcases eq_or_lt_of_le (Real.sqrt_nonneg S) with h0 | hpos
  · have hS0 : S ≤ 0 := Real.sqrt_eq_zero'.1 h0.symm
    have hz2 : z ^ 2 = 0 := le_antisymm (le_trans hz hS0) (sq_nonneg z)
    have hz0 : z = 0 := by
      have h2 : (2 : ℕ) ≠ 0 := by norm_num
      exact (pow_eq_zero_iff h2).1 hz2
    rw [← h0, hz0]
    ring
  · have hsne : Real.sqrt S ≠ 0 := ne_of_gt hpos
    have habs : |z| ≤ Real.sqrt S := by
      have h3 : Real.sqrt (z ^ 2) ≤ Real.sqrt S := Real.sqrt_le_sqrt hz
      rwa [Real.sqrt_sq_eq_abs] at h3
    obtain ⟨hlo, hhi⟩ := abs_le.1 habs
    have h1 : -1 ≤ z / Real.sqrt S := by
      rw [neg_le, ← neg_div]
      exact div_le_one_of_le₀ (by linarith) hpos.le
    have h2 : z / Real.sqrt S ≤ 1 := div_le_one_of_le₀ (by linarith) hpos.le
    rw [Real.cos_arccos h1 h2, mul_div_cancel₀ _ hsne]

/-- C6: for every valid box, strictly positive resolution and grid type
in {cartesian, spherical, cylindrical}, the seven coordinates produced
at any grid point satisfy `x² + y² = r_cylindrical²`,
`x² + y² + z² = r_spherical²` and `z = r_spherical * cos theta`,
whichever grid type natively generated the mesh. -/
theorem grid_coordinates_consistent (g : Grid) (idx : Fin 3 → ℕ) (coords : Coords)
    (hgt : g.grid_type ∈ (["cartesian", "spherical", "cylindrical"] : List String))
    (hres : ∀ i, 0 < g.resolution i)
    (h : generateCoordinatesAt g idx = Except.ok coords) :
    coords.x ^ 2 + coords.y ^ 2 = coords.r_cylindrical ^ 2 ∧
    coords.x ^ 2 + coords.y ^ 2 + coords.z ^ 2 = coords.r_spherical ^ 2 ∧
    coords.z = coords.r_spherical * Real.cos coords.theta := by
  simp only [generateCoordinatesAt] at h
  split_ifs at h with h1 h2 h3
  · -- cartesian branch
    injection h with h
    subst h
    refine ⟨?_, ?_, ?_⟩
    · dsimp only
      rw [Real.sq_sqrt (by positivity)]
    · dsimp only
      rw [Real.sq_sqrt (by positivity)]
    · dsimp only
      refine (sqrt_mul_cos_arccos_div _ _ (by positivity)
        (by nlinarith [sq_nonneg (linspace (g.box 0).1 (g.box 0).2 (g.resolution 0) (idx 0)),
          sq_nonneg (linspace (g.box 1).1 (g.box 1).2 (g.resolution 1) (idx 1))])).symm
  · -- spherical branch
    injection h with h
    subst h
    have hth := Real.sin_sq_add_cos_sq (linspace (g.box 1).1 (g.box 1).2 (g.resolution 1) (idx 1))
    have hph := Real.sin_sq_add_cos_sq (linspace (g.box 2).1 (g.box 2).2 (g.resolution 2) (idx 2))
    refine ⟨?_, ?_, rfl⟩
    · dsimp only
      linear_combination (linspace (g.box 0).1 (g.box 0).2 (g.resolution 0) (idx 0) *
        Real.sin (linspace (g.box 1).1 (g.box 1).2 (g.resolution 1) (idx 1))) ^ 2 * hph
    · dsimp only
      linear_combination (linspace (g.box 0).1 (g.box 0).2 (g.resolution 0) (idx 0)) ^ 2 *
          Real.sin (linspace (g.box 1).1 (g.box 1).2 (g.resolution 1) (idx 1)) ^ 2 * hph +
        (linspace (g.box 0).1 (g.box 0).2 (g.resolution 0) (idx 0)) ^ 2 * hth
  · -- cylindrical branch
    injection h with h
    subst h
    have hph := Real.sin_sq_add_cos_sq (linspace (g.box 1).1 (g.box 1).2 (g.resolution 1) (idx 1))
    refine ⟨?_, ?_, ?_⟩
    · dsimp only
      linear_combination (linspace (g.box 0).1 (g.box 0).2 (g.resolution 0) (idx 0)) ^ 2 * hph
    · dsimp only
      rw [Real.sq_sqrt (by positivity)]
      linear_combination (linspace (g.box 0).1 (g.box 0).2 (g.resolution 0) (idx 0)) ^ 2 * hph
    · dsimp only
      refine (sqrt_mul_cos_arccos_div _ _ (by positivity)
        (by nlinarith [sq_nonneg (linspace (g.box 0).1 (g.box 0).2 (g.resolution 0) (idx 0))])).symm

/-- Witness for C6: the spherical example grid at the index-(0,0,0)
point (the origin). -/
theorem grid_coordinates_consistent_witness :
    gridSphExample.grid_type ∈ (["cartesian", "spherical", "cylindrical"] : List String) ∧
    (∀ i, 0 < gridSphExample.resolution i) ∧
    generateCoordinatesAt gridSphExample (fun _ => 0) = Except.ok coordsZero ∧
    (coordsZero.x ^ 2 + coordsZero.y ^ 2 = coordsZero.r_cylindrical ^ 2 ∧
     coordsZero.x ^ 2 + coordsZero.y ^ 2 + coordsZero.z ^ 2 = coordsZero.r_spherical ^ 2 ∧
     coordsZero.z = coordsZero.r_spherical * Real.cos coordsZero.theta) := by
  have hgt : gridSphExample.grid_type ∈
      (["cartesian", "spherical", "cylindrical"] : List String) := by
    simp [gridSphExample]
  have hres : ∀ i, 0 < gridSphExample.resolution i := by
    intro i
    norm_num [gridSphExample]
  have hgen : generateCoordinatesAt gridSphExample (fun _ => 0) = Except.ok coordsZero := by
    norm_num [generateCoordinatesAt, gridSphExample, coordsZero, linspace, Coords.mk.injEq]
    intro hc
    exact absurd hc (by simp)
  exact ⟨hgt, hres, hgen,
    grid_coordinates_consistent gridSphExample (fun _ => 0) coordsZero hgt hres hgen⟩

end GridConsistency

section IntegrandBug

/-- The code's integrand differs from the spec's `r·(Br²+Bphi²+Bz²)` by
exactly `(1-r)·(Bphi²+Bz²)`: Python's precedence multiplies only the
`Br²` term by the volume-element factor `r`. -/
theorem intregrand_sub_spec (j0 j1 : ℝ → ℝ) (jv : ℝ → ℝ → ℝ) (r phi z kn Ralpha D : ℝ) :
    intregrand_compute_normalization j0 j1 jv r phi z kn Ralpha D -
      intregrand_spec j0 j1 jv r phi z kn Ralpha D =
    (1 - r) * ((get_B_disk_cyl_unnormalized j0 j1 jv r phi z kn Ralpha D).2.1 ^ 2 +
               (get_B_disk_cyl_unnormalized j0 j1 jv r phi z kn Ralpha D).2.2 ^ 2) := by
  simp only [intregrand_compute_normalization, intregrand_spec]
  ring

/-- C1 (code evaluated at the failing input): at
`r = 1/2, phi = 0, z = 0, kn = 2, Ralpha_d = 1, D_d = -1` the integrand
computed by `__intregrand_compute_normalization` is **not** `r` times
the sum of the three squared field components (it omits the factor `r`
on `Bphi²` and `Bz²`), whenever `J1(kn·r) = j1 1` is non-zero — as the
true Bessel function there is. -/
theorem intregrand_not_r_times_energy (j0 j1 : ℝ → ℝ) (jv : ℝ → ℝ → ℝ)
    (h : j1 1 ≠ 0) :
    intregrand_compute_normalization j0 j1 jv (1 / 2) 0 0 2 1 (-1) ≠
      intregrand_spec j0 j1 jv (1 / 2) 0 0 2 1 (-1) := by
  intro heq
  have hd := intregrand_sub_spec j0 j1 jv (1 / 2) 0 0 2 1 (-1)
  rw [heq, sub_self] at hd
  have hBz : (get_B_disk_cyl_unnormalized j0 j1 jv (1 / 2) 0 0 2 1 (-1)).2.2 = 0 := by
    simp [get_B_disk_cyl_unnormalized]
  have hBphi : (get_B_disk_cyl_unnormalized j0 j1 jv (1 / 2) 0 0 2 1 (-1)).2.1 ≠ 0 := by
    simp only [get_B_disk_cyl_unnormalized]
    norm_num
    constructor
    · exact h
    · exact Real.sqrt_ne_zero'.2 Real.pi_pos
  rw [hBz] at hd
  have hB2 : (get_B_disk_cyl_unnormalized j0 j1 jv (1 / 2) 0 0 2 1 (-1)).2.1 ^ 2 = 0 := by
    nlinarith [hd]
  exact hBphi ((pow_eq_zero_iff (by norm_num : (2 : ℕ) ≠ 0)).1 hB2)

/-- Witness for C1 with the Bessel parameter instantiated at a function
that is non-zero at the relevant point. -/
theorem intregrand_not_r_times_energy_witness :
    ((fun _ : ℝ => (1 : ℝ)) 1 ≠ 0) ∧
    intregrand_compute_normalization (fun _ => 0) (fun _ => 1) (fun _ _ => 0)
        (1 / 2) 0 0 2 1 (-1) ≠
      intregrand_spec (fun _ => 0) (fun _ => 1) (fun _ _ => 0) (1 / 2) 0 0 2 1 (-1) :=
  ⟨by norm_num,
    intregrand_not_r_times_energy (fun _ => 0) (fun _ => 1) (fun _ _ => 0) (by norm_num)⟩

end IntegrandBug

section HaloBoundary

/-- Helper: closed form of mode a_2's interior-branch `Btheta` at
`r = 1`, `theta = π/2`: the first two terms of `X` cancel there and the
remaining term is `√(2/π)·B(1)/√k`. -/
theorem a2_interior_btheta_at_one (jv : ℝ → ℝ → ℝ) (C k : ℝ) (hk : 0 < k) :
    (get_B_a_2_interior jv 1 (π / 2) 0 C k).2.1 =
      C * (Real.sqrt (2 / π) *
        (-45 * Real.sin k / k ^ 3 + 45 * Real.cos k / k ^ 2 + 21 * Real.sin k / k
          - k * Real.sin k - 6 * Real.sin k) / Real.sqrt k) := by
  have h3 : k ≠ 0 := ne_of_gt hk
  have h32 : k ^ ((3 : ℝ) / 2) = k * Real.sqrt k := by
    rw [show ((3 : ℝ) / 2) = 1 + 1 / 2 by norm_num, Real.rpow_add hk, Real.rpow_one,
      ← Real.sqrt_eq_rpow]
  have h1 : Real.sqrt (2 * π) ≠ 0 := by positivity
  have h2 : Real.sqrt k ≠ 0 := by positivity
  simp only [get_B_a_2_interior, mul_one, div_one, Real.sqrt_one, Real.sin_pi_div_two,
    Real.cos_pi_div_two]
  rw [h32, Real.sqrt_mul (show (0 : ℝ) ≤ 2 * π by positivity) k]
  field_simp
  ring

/-- C2 (code evaluated at the failing input): halo mode a_2 with its
default constants `C = 0.250`, `k = 5.763` is **not** continuous at
`r = 1`: at `theta = π/2` the interior-branch `Btheta` formula evaluated
at `r = 1` differs from the exterior-branch formula evaluated at `r = 1`
by more than `1e-6` (the source stubs the exterior `X` to `0.0`, so the
exterior `Btheta` vanishes while the interior value is ≈ 0.44). -/
theorem get_B_a_2_discontinuous_at_boundary (jv : ℝ → ℝ → ℝ) :
    1e-6 < |(get_B_a_2_interior jv 1 (π / 2) 0 0.250 5.763).2.1 -
            (get_B_a_2_exterior jv 1 (π / 2) 0 0.250 5.763).2.1| := by
  have hext : (get_B_a_2_exterior jv 1 (π / 2) 0 0.250 5.763).2.1 = 0 := by
    simp [get_B_a_2_exterior]
  have hint := a2_interior_btheta_at_one jv 0.250 5.763 (by norm_num)
  rw [hint, hext, sub_zero]
  have hp1 : (3.141592 : ℝ) < π := Real.pi_gt_d6
  have hp2 : π < 3.141593 := Real.pi_lt_d6
  have hs0 : 0 < Real.sin (2 * π - 5.763) :=
    Real.sin_pos_of_pos_of_lt_pi (by linarith) (by linarith)
  have hsin : Real.sin (5.763 : ℝ) < 0 := by
    have e1 : Real.sin (5.763 : ℝ) = Real.sin (5.763 - 2 * π) :=
      (Real.sin_sub_two_pi 5.763).symm
    have e2 : Real.sin ((5.763 : ℝ) - 2 * π) = -Real.sin (2 * π - 5.763) := by
      rw [show (5.763 : ℝ) - 2 * π = -(2 * π - 5.763) by ring, Real.sin_neg]
    rw [e1, e2]
    linarith
  have hcos : (1 / 2 : ℝ) ≤ Real.cos (5.763 : ℝ) := by
    have e1 : Real.cos (5.763 : ℝ) = Real.cos (2 * π - 5.763) := by
      rw [show (2 * π - 5.763 : ℝ) = -(5.763 - 2 * π) by ring, Real.cos_neg,
        Real.cos_sub_two_pi]
    have h4 := Real.cos_le_cos_of_nonneg_of_le_pi
      (show (0 : ℝ) ≤ 2 * π - 5.763 by linarith)
      (show (π / 3 : ℝ) ≤ π by linarith)
      (show (2 * π - 5.763 : ℝ) ≤ π / 3 by linarith)
    rw [Real.cos_pi_div_three] at h4
    rw [e1]
    exact h4
  set s := Real.sin (5.763 : ℝ) with hs_def
  set c := Real.cos (5.763 : ℝ) with hc_def
  set N := -45 * s / (5.763 : ℝ) ^ 3 + 45 * c / (5.763 : ℝ) ^ 2 + 21 * s / 5.763 -
    5.763 * s - 6 * s with hN_def
  have hNre : N = s * (-45 / (5.763 : ℝ) ^ 3 + 21 / 5.763 - 5.763 - 6) +
      c * (45 / (5.763 : ℝ) ^ 2) := by
    rw [hN_def]
    ring
  have hcoef : (-45 / (5.763 : ℝ) ^ 3 + 21 / 5.763 - 5.763 - 6) ≤ 0 := by norm_num
  have hterm1 : 0 ≤ s * (-45 / (5.763 : ℝ) ^ 3 + 21 / 5.763 - 5.763 - 6) :=
    by nlinarith [hsin, hcoef]
  have hterm2 : (1 / 2 : ℝ) * (45 / (5.763 : ℝ) ^ 2) ≤ c * (45 / (5.763 : ℝ) ^ 2) :=
    mul_le_mul_of_nonneg_right hcos (by positivity)
  have hN : (0.677 : ℝ) ≤ N := by
    have h5 : (0.677 : ℝ) ≤ (1 / 2 : ℝ) * (45 / (5.763 : ℝ) ^ 2) := by norm_num
    rw [hNre]
    linarith
  have hs1 : (0.7 : ℝ) ≤ Real.sqrt (2 / π) := by
    have h49 : (0.49 : ℝ) ≤ 2 / π := by
      rw [le_div_iff₀ (by linarith : (0 : ℝ) < π)]
      nlinarith
    calc (0.7 : ℝ) = Real.sqrt 0.49 := by
          rw [show (0.49 : ℝ) = 0.7 ^ 2 by norm_num, Real.sqrt_sq (by norm_num)]
      _ ≤ Real.sqrt (2 / π) := Real.sqrt_le_sqrt h49
  have hs2 : Real.sqrt (5.763 : ℝ) ≤ 2.5 := by
    calc Real.sqrt (5.763 : ℝ) ≤ Real.sqrt 6.25 := Real.sqrt_le_sqrt (by norm_num)
      _ = 2.5 := by rw [show (6.25 : ℝ) = 2.5 ^ 2 by norm_num, Real.sqrt_sq (by norm_num)]
  have hs2' : (0 : ℝ) < Real.sqrt 5.763 := Real.sqrt_pos.2 (by norm_num)
  have hnum : (0.7 : ℝ) * 0.677 ≤ Real.sqrt (2 / π) * N :=
    mul_le_mul hs1 hN (by norm_num) (le_trans (by norm_num) hs1)
  have hdiv : ((0.7 : ℝ) * 0.677) / 2.5 ≤ Real.sqrt (2 / π) * N / Real.sqrt 5.763 :=
    div_le_div₀ (le_trans (by norm_num) hnum) hnum hs2' hs2
  have habs : (0 : ℝ) ≤ 0.250 * (Real.sqrt (2 / π) * N / Real.sqrt 5.763) := by nlinarith
  rw [abs_of_nonneg habs]
  nlinarith

end HaloBoundary

section CacheParametricity

/-- Helper: the inner `z`-profile of the normalization integrand
integrates to 1 over `[-1, 1]`. -/
theorem cos_sq_integral_one : (∫ z in (-1 : ℝ)..1, Real.cos (π * z / 2.0) ^ 2) = 1 := by
  have hhalf : (π / 2 : ℝ) ≠ 0 := by positivity
  have hfun : (fun z : ℝ => Real.cos (π * z / 2.0) ^ 2) =
      fun z : ℝ => Real.cos (π / 2 * z) ^ 2 := by
    funext z
    congr 2
    ring
  simp only [hfun]
  rw [intervalIntegral.integral_comp_mul_left (fun u => Real.cos u ^ 2) hhalf]
  rw [integral_cos_sq]
  have e1 : (π / 2 * (1 : ℝ)) = π / 2 := by ring
  have e2 : (π / 2 * (-1 : ℝ)) = -(π / 2) := by ring
  rw [e1, e2, Real.sin_pi_div_two, Real.cos_pi_div_two, Real.sin_neg, Real.cos_neg,
    Real.sin_pi_div_two, Real.cos_pi_div_two]
  rw [smul_eq_mul]
  field_simp

/-- Helper: with `Ralpha = 0` the unnormalized field reduces to its
azimuthal component and the (as-implemented) normalization integral
evaluates in closed form to `(-D) * 8 * ∫ r in 0..1, J1(kn·r)²`, so the
normalization factor depends on the dynamo number `D`. -/
theorem compute_normalization_ralpha_zero (j0 j1 : ℝ → ℝ) (jv : ℝ → ℝ → ℝ)
    (kn D : ℝ) (hD : D < 0) :
    compute_normalization j0 j1 jv kn 0 D =
      ((-D) * 8 * ∫ r in (0 : ℝ)..1, j1 (kn * r) ^ 2) ^ (-(0.5) : ℝ) := by
  have hsq : Real.sqrt (-D / π) * Real.sqrt (-D / π) = -D / π :=
    Real.mul_self_sqrt (div_nonneg (by linarith) Real.pi_pos.le)
  have hpoint : ∀ z phi r : ℝ,
      intregrand_compute_normalization j0 j1 jv r phi z kn 0 D =
        (4 * (-D) / π * Real.cos (π * z / 2.0) ^ 2) * j1 (kn * r) ^ 2 := by
    intro z phi r
    simp only [intregrand_compute_normalization, get_B_disk_cyl_unnormalized]
    linear_combination (4 * j1 (kn * r) ^ 2 * Real.cos (π * z / 2.0) ^ 2) * hsq
  have hr : ∀ z phi : ℝ,
      (∫ r in (0 : ℝ)..1, intregrand_compute_normalization j0 j1 jv r phi z kn 0 D) =
        (4 * (-D) / π * Real.cos (π * z / 2.0) ^ 2) * ∫ r in (0 : ℝ)..1, j1 (kn * r) ^ 2 := by
    intro z phi
    simp only [hpoint]
    exact intervalIntegral.integral_const_mul _ _
  have hphi : ∀ z : ℝ,
      (∫ phi in (0 : ℝ)..(2.0 * π), ∫ r in (0 : ℝ)..1,
          intregrand_compute_normalization j0 j1 jv r phi z kn 0 D) =
        ((-D) * 8 * ∫ r in (0 : ℝ)..1, j1 (kn * r) ^ 2) * Real.cos (π * z / 2.0) ^ 2 := by
    intro z
    simp only [hr]
    rw [intervalIntegral.integral_const, smul_eq_mul]
    field_simp
    ring
  unfold compute_normalization
  congr 1
  simp only [hphi]
  rw [intervalIntegral.integral_const_mul, cos_sq_integral_one, mul_one]

/-- C9: the cache `B_norm` is keyed by `kn` alone although the
normalization depends on the parameter set: with `Ralpha_d = 0` and
`D_d = -1` versus `D_d = -4`, a `get_B_disk_cyl_component` call for the
second parameter set made after a call for the first returns the second
set's field scaled by the normalization computed from the **first** set,
and this differs from what the very same call returns on an empty
cache. -/
theorem get_B_disk_cyl_component_stale_normalization (j0 j1 : ℝ → ℝ) (jv : ℝ → ℝ → ℝ) (kn r0 : ℝ)
    (hJ : 0 < ∫ r in (0 : ℝ)..1, j1 (kn * r) ^ 2)
    (hj : j1 (kn * r0) ≠ 0) :
    (get_B_disk_cyl_component j0 j1 jv r0 0 0 kn 0 (-4)
        (get_B_disk_cyl_component j0 j1 jv r0 0 0 kn 0 (-1) []).2.1).1 =
      (compute_normalization j0 j1 jv kn 0 (-1) *
          (get_B_disk_cyl_unnormalized j0 j1 jv r0 0 0 kn 0 (-4)).1,
       compute_normalization j0 j1 jv kn 0 (-1) *
          (get_B_disk_cyl_unnormalized j0 j1 jv r0 0 0 kn 0 (-4)).2.1,
       compute_normalization j0 j1 jv kn 0 (-1) *
          (get_B_disk_cyl_unnormalized j0 j1 jv r0 0 0 kn 0 (-4)).2.2) ∧
    (get_B_disk_cyl_component j0 j1 jv r0 0 0 kn 0 (-4)
        (get_B_disk_cyl_component j0 j1 jv r0 0 0 kn 0 (-1) []).2.1).1 ≠
      (get_B_disk_cyl_component j0 j1 jv r0 0 0 kn 0 (-4) []).1 := by
  have hc1 : (get_B_disk_cyl_component j0 j1 jv r0 0 0 kn 0 (-1) []).2.1 =
      [(kn, compute_normalization j0 j1 jv kn 0 (-1))] := by
    simp [get_B_disk_cyl_component, cacheFind]
  have hfind : cacheFind [(kn, compute_normalization j0 j1 jv kn 0 (-1))] kn =
      some (compute_normalization j0 j1 jv kn 0 (-1)) := by
    simp [cacheFind]
  have hstale : (get_B_disk_cyl_component j0 j1 jv r0 0 0 kn 0 (-4)
      (get_B_disk_cyl_component j0 j1 jv r0 0 0 kn 0 (-1) []).2.1).1 =
      (compute_normalization j0 j1 jv kn 0 (-1) *
          (get_B_disk_cyl_unnormalized j0 j1 jv r0 0 0 kn 0 (-4)).1,
       compute_normalization j0 j1 jv kn 0 (-1) *
          (get_B_disk_cyl_unnormalized j0 j1 jv r0 0 0 kn 0 (-4)).2.1,
       compute_normalization j0 j1 jv kn 0 (-1) *
          (get_B_disk_cyl_unnormalized j0 j1 jv r0 0 0 kn 0 (-4)).2.2) := by
    rw [hc1]
    simp [get_B_disk_cyl_component, hfind]
  have hfresh : (get_B_disk_cyl_component j0 j1 jv r0 0 0 kn 0 (-4) []).1 =
      (compute_normalization j0 j1 jv kn 0 (-4) *
          (get_B_disk_cyl_unnormalized j0 j1 jv r0 0 0 kn 0 (-4)).1,
       compute_normalization j0 j1 jv kn 0 (-4) *
          (get_B_disk_cyl_unnormalized j0 j1 jv r0 0 0 kn 0 (-4)).2.1,
       compute_normalization j0 j1 jv kn 0 (-4) *
          (get_B_disk_cyl_unnormalized j0 j1 jv r0 0 0 kn 0 (-4)).2.2) := by
    simp [get_B_disk_cyl_component, cacheFind]
  refine ⟨hstale, ?_⟩
  rw [hstale, hfresh]
  have hN : compute_normalization j0 j1 jv kn 0 (-1) ≠
      compute_normalization j0 j1 jv kn 0 (-4) := by
    rw [compute_normalization_ralpha_zero j0 j1 jv kn (-1) (by norm_num),
        compute_normalization_ralpha_zero j0 j1 jv kn (-4) (by norm_num)]
    have e1 : (-(-1 : ℝ)) * 8 * (∫ r in (0 : ℝ)..1, j1 (kn * r) ^ 2) =
        8 * ∫ r in (0 : ℝ)..1, j1 (kn * r) ^ 2 := by ring
    have e2 : (-(-4 : ℝ)) * 8 * (∫ r in (0 : ℝ)..1, j1 (kn * r) ^ 2) =
        32 * ∫ r in (0 : ℝ)..1, j1 (kn * r) ^ 2 := by ring
    rw [e1, e2]
    have h8 : (0 : ℝ) < 8 * ∫ r in (0 : ℝ)..1, j1 (kn * r) ^ 2 := by linarith
    have h32 : (0 : ℝ) < 32 * ∫ r in (0 : ℝ)..1, j1 (kn * r) ^ 2 := by linarith
    have hx : ∀ x : ℝ, 0 < x → x ^ (-(0.5) : ℝ) = (Real.sqrt x)⁻¹ := by
      intro x hx0
      rw [show (-(0.5) : ℝ) = -(1 / 2) by norm_num, Real.rpow_neg hx0.le,
        ← Real.sqrt_eq_rpow]
    rw [hx _ h8, hx _ h32]
    intro heq
    have hs8 : (0 : ℝ) < Real.sqrt (8 * ∫ r in (0 : ℝ)..1, j1 (kn * r) ^ 2) :=
      Real.sqrt_pos.2 h8
    have hs32 : Real.sqrt (8 * ∫ r in (0 : ℝ)..1, j1 (kn * r) ^ 2) <
        Real.sqrt (32 * ∫ r in (0 : ℝ)..1, j1 (kn * r) ^ 2) :=
      Real.sqrt_lt_sqrt h8.le (by linarith)
    have heq2 := inv_inj.1 heq
    linarith
  have hBphi : (get_B_disk_cyl_unnormalized j0 j1 jv r0 0 0 kn 0 (-4)).2.1 ≠ 0 := by
    simp only [get_B_disk_cyl_unnormalized]
    norm_num
    constructor
    · exact hj
    · exact Real.sqrt_ne_zero'.2 Real.pi_pos
  intro h
  apply hN
  have h2 := congrArg (fun t : ℝ × ℝ × ℝ => t.2.1) h
  dsimp only at h2
  exact mul_right_cancel₀ hBphi h2

/-- Witness for C9 with the Bessel parameter `j1` instantiated at the
constant function 1 (positive energy integral, non-zero at the sample
point), `kn = 1`, sample point the origin. -/
theorem get_B_disk_cyl_component_stale_normalization_witness :
    ((0 : ℝ) < ∫ r in (0 : ℝ)..1, ((fun _ : ℝ => (1 : ℝ)) (1 * r)) ^ 2) ∧
    ((fun _ : ℝ => (1 : ℝ)) (1 * 0) ≠ 0) ∧
    ((get_B_disk_cyl_component (fun _ => 0) (fun _ => 1) (fun _ _ => 0) 0 0 0 1 0 (-4)
        (get_B_disk_cyl_component (fun _ => 0) (fun _ => 1) (fun _ _ => 0)
          0 0 0 1 0 (-1) []).2.1).1 =
      (compute_normalization (fun _ => 0) (fun _ => 1) (fun _ _ => 0) 1 0 (-1) *
          (get_B_disk_cyl_unnormalized (fun _ => 0) (fun _ => 1) (fun _ _ => 0)
            0 0 0 1 0 (-4)).1,
       compute_normalization (fun _ => 0) (fun _ => 1) (fun _ _ => 0) 1 0 (-1) *
          (get_B_disk_cyl_unnormalized (fun _ => 0) (fun _ => 1) (fun _ _ => 0)
            0 0 0 1 0 (-4)).2.1,
       compute_normalization (fun _ => 0) (fun _ => 1) (fun _ _ => 0) 1 0 (-1) *
          (get_B_disk_cyl_unnormalized (fun _ => 0) (fun _ => 1) (fun _ _ => 0)
            0 0 0 1 0 (-4)).2.2) ∧
     (get_B_disk_cyl_component (fun _ => 0) (fun _ => 1) (fun _ _ => 0) 0 0 0 1 0 (-4)
        (get_B_disk_cyl_component (fun _ => 0) (fun _ => 1) (fun _ _ => 0)
          0 0 0 1 0 (-1) []).2.1).1 ≠
      (get_B_disk_cyl_component (fun _ => 0) (fun _ => 1) (fun _ _ => 0)
        0 0 0 1 0 (-4) []).1) := by
  have h1 : (0 : ℝ) < ∫ r in (0 : ℝ)..1, ((fun _ : ℝ => (1 : ℝ)) (1 * r)) ^ 2 := by
    norm_num [intervalIntegral.integral_const]
  have h2 : ((fun _ : ℝ => (1 : ℝ)) (1 * 0) : ℝ) ≠ 0 := by norm_num
  exact ⟨h1, h2, get_B_disk_cyl_component_stale_normalization (fun _ => 0) (fun _ => 1) (fun _ _ => 0) 1 0 h1 h2⟩

end CacheParametricity
